import Mathlib

/-!
Verification of the permission-satisfaction matcher of `taskdemo` (src/main.go).

The matcher is the loop pattern appearing at main.go lines 306-311 (`write`),
360-365 (`readOnce`), 410-415 (`downsampleOnce`) and 463-469 (`createTask`):
scan a user's authorizations in the order returned by the authorization
service, and select the first one `a` for which `a.Allowed(p)` holds for every
required permission `p`; if none qualifies, report the not-found condition
(the CLI then logs the examined authorizations and terminates).

The permission subsumption predicate `allows` is supplied by the external
platform library and is treated as a black-box parameter, exactly as the spec
prescribes (spec sections 3 and 9).
-/

namespace TaskDemo

/-- Permission actions, mirroring `platform.ReadAction`, `platform.WriteAction`,
`platform.CreateAction`, `platform.DeleteAction` as used in src/main.go. -/
inductive Action where
  | read
  | write
  | create
  | delete
deriving DecidableEq

/-- Resource references: a resource kind plus a scoping identifier, mirroring
`platform.BucketResource`, `platform.TaskResource(orgID)` etc. used in
src/main.go (buckets are scoped by bucket ID, tasks by org ID). -/
inductive Resource where
  | bucket (id : Nat)
  | org (id : Nat)
  | task (orgID : Nat)
  | user (id : Nat)
deriving DecidableEq

/-- A permission is an (action, resource-reference) pair, mirroring
`platform.Permission{Action, Resource}` as constructed in src/main.go. -/
structure Permission where
  action : Action
  resource : Resource
deriving DecidableEq

/-- Mirrors `platform.ReadBucketPermission(bID)` (src/main.go lines 211, 222, 361). -/
def ReadBucketPermission (id : Nat) : Permission :=
  ⟨Action.read, Resource.bucket id⟩

/-- Mirrors `platform.WriteBucketPermission(bID)` (src/main.go lines 200, 223, 307). -/
def WriteBucketPermission (id : Nat) : Permission :=
  ⟨Action.write, Resource.bucket id⟩

/-- Mirrors `platform.TaskResource(oID)` (src/main.go lines 224, 465). -/
def TaskResource (orgID : Nat) : Resource :=
  Resource.task orgID

/-- Mirrors `platform.Permission{Action: platform.CreateAction, Resource:
platform.TaskResource(oID)}` (src/main.go lines 224, 465). -/
def CreateTaskPermission (orgID : Nat) : Permission :=
  ⟨Action.create, TaskResource orgID⟩

/-- An authorization record: token, owning user, and granted permissions,
mirroring `platform.Authorization` as used in src/main.go (lines 197-202). -/
structure Authorization where
  token : String
  userID : Nat
  permissions : List Permission
deriving DecidableEq

/-- Modelled from the spec: the external platform library's
`Authorization.Allowed(p)` method, called at src/main.go lines 307, 361, 411,
464-465 but defined in the excluded collaborator. Per spec sections 3 and 4.1,
the authorization's permission list is scanned linearly and each held
permission is compared to the requested one by the black-box `allows`
predicate. -/
def Authorization.Allowed (allows : Permission → Permission → Bool)
    (a : Authorization) (p : Permission) : Bool :=
  a.permissions.any (fun held => allows held p)

/-- The conjunction guarding the selection in each matcher loop: the
authorization satisfies every required permission. In src/main.go this is the
single check `a.Allowed(...)` at lines 307 and 361, the two-fold `&&` chain at
line 411, and the three-fold `&&` chain at lines 464-465. -/
def satisfiesAll (allows : Permission → Permission → Bool)
    (a : Authorization) (required : List Permission) : Bool :=
  required.all (fun p => a.Allowed allows p)

/-- The matcher loop of src/main.go lines 306-311 (and its copies at 360-365,
410-415, 463-469), generalized over the list of required permissions: walk the
authorizations in order, return the first that satisfies all required
permissions (`break` on first match), and `none` when the loop finishes with
the result variable still nil. -/
def findAuthorization (allows : Permission → Permission → Bool)
    (authorizations : List Authorization) (required : List Permission) :
    Option Authorization :=
  match authorizations with
  | [] => none
  | a :: rest =>
    if satisfiesAll allows a required then some a
    else findAuthorization allows rest required

/-- Imperative rendering of the same loop, additionally returning the
authorization slice as it stands after the loop: the Go `for _, a := range as`
loop only reads the slice, so the returned slice is the input unchanged. Used
to state that the matcher never mutates its input. -/
def findAuthorizationRun (allows : Permission → Permission → Bool)
    (authorizations : List Authorization) (required : List Permission) :
    Option Authorization × List Authorization :=
  match authorizations with
  | [] => (none, [])
  | a :: rest =>
    if satisfiesAll allows a required then (some a, a :: rest)
    else
      let r := findAuthorizationRun allows rest required
      (r.1, a :: r.2)

/-- Structural-equality instantiation of the black-box `allows` predicate: the
base case of spec section 3 ("two permissions match iff action and
resource-reference are identical"), used to evaluate concrete scenarios. -/
def allowsEq (held requested : Permission) : Bool :=
  decide (held = requested)

/-- Scenario fixture: an authorization granting only `read(B1)` with B1 = 1. -/
def authReadB1 : Authorization :=
  ⟨"tok-read-b1", 0, [ReadBucketPermission 1]⟩

/-- Scenario fixture: an authorization granting only `write(B1)` with B1 = 1. -/
def authWriteB1 : Authorization :=
  ⟨"tok-write-b1", 0, [WriteBucketPermission 1]⟩

/-- Scenario fixture: an authorization granting `read(B1)` and `write(B2)`
with B1 = 1, B2 = 2. -/
def authReadB1WriteB2 : Authorization :=
  ⟨"tok-read-b1-write-b2", 0, [ReadBucketPermission 1, WriteBucketPermission 2]⟩

/-- Skipping a prefix of non-satisfying authorizations leaves the matcher
result unchanged: the loop body at src/main.go lines 306-311 does nothing on a
non-matching element. -/
theorem findAuthorization_append_of_none (allows : Permission → Permission → Bool)
    (l1 rest : List Authorization) (required : List Permission)
    (h1 : ∀ b ∈ l1, satisfiesAll allows b required = false) :
    findAuthorization allows (l1 ++ rest) required =
      findAuthorization allows rest required := by
  induction l1 with
  | nil => rfl
  | cons b l ih =>
    have hb : satisfiesAll allows b required = false :=
      h1 b (List.mem_cons_self b l)
    simp only [List.cons_append, findAuthorization, hb, Bool.false_eq_true,
      if_false]
    exact ih (fun c hc => h1 c (List.mem_cons_of_mem b hc))

/-- C1: First-match policy. If every authorization before `a` fails the
required set and `a` satisfies it, the matcher returns `a`, and the result is
the same no matter what follows `a` in the input. -/
theorem findAuthorization_first_match (allows : Permission → Permission → Bool)
    (l1 l2 : List Authorization) (a : Authorization)
    (required : List Permission) (hne : required ≠ [])
    (h1 : ∀ b ∈ l1, satisfiesAll allows b required = false)
    (ha : satisfiesAll allows a required = true) :
    findAuthorization allows (l1 ++ a :: l2) required = some a ∧
      ∀ l3 : List Authorization,
        findAuthorization allows (l1 ++ a :: l3) required =
          findAuthorization allows (l1 ++ a :: l2) required := by
  have key : ∀ l : List Authorization,
      findAuthorization allows (l1 ++ a :: l) required = some a := by
    intro l
    rw [findAuthorization_append_of_none allows l1 (a :: l) required h1]
    simp only [findAuthorization, ha, if_true]
  exact ⟨key l2, fun l3 => (key l3).trans (key l2).symm⟩

/-- Witness for C1 at the two-authorization write scenario. -/
theorem findAuthorization_first_match_witness :
    ([WriteBucketPermission 1] ≠ ([] : List Permission)) ∧
      (∀ b ∈ [authReadB1], satisfiesAll allowsEq b [WriteBucketPermission 1] = false) ∧
      satisfiesAll allowsEq authWriteB1 [WriteBucketPermission 1] = true ∧
      (findAuthorization allowsEq ([authReadB1] ++ authWriteB1 :: []) [WriteBucketPermission 1] = some authWriteB1 ∧
        ∀ l3 : List Authorization,
          findAuthorization allowsEq ([authReadB1] ++ authWriteB1 :: l3) [WriteBucketPermission 1] =
            findAuthorization allowsEq ([authReadB1] ++ authWriteB1 :: []) [WriteBucketPermission 1]) :=
  ⟨by decide, by decide, by decide,
    findAuthorization_first_match allowsEq [authReadB1] [] authWriteB1
      [WriteBucketPermission 1] (by decide) (by decide) (by decide)⟩

/-- C2: NotFound iff no match. The matcher reports the not-found condition
(modelled as `none`, which the CLI at src/main.go lines 312-319 surfaces by
logging and terminating, never recovering) exactly when no authorization in
the input satisfies every required permission. -/
theorem findAuthorization_none_iff (allows : Permission → Permission → Bool)
    (authorizations : List Authorization) (required : List Permission)
    (hne : required ≠ []) :
    findAuthorization allows authorizations required = none ↔
      ∀ a ∈ authorizations, satisfiesAll allows a required = false := by
  induction authorizations with
  | nil => simp [findAuthorization]
  | cons a rest ih =>
    by_cases ha : satisfiesAll allows a required = true
    · simp [findAuthorization, ha]
    · have ha' : satisfiesAll allows a required = false :=
        Bool.eq_false_iff.mpr ha
      simp only [findAuthorization, ha', Bool.false_eq_true, if_false, ih,
        List.mem_cons]
      constructor
      · intro h b hb
        rcases hb with hb | hb
        · exact hb ▸ ha'
        · exact h b hb
      · intro h b hb
        exact h b (Or.inr hb)

/-- Witness for C2: no authorization in the list grants `write(B1)`. -/
theorem findAuthorization_none_iff_witness :
    ([WriteBucketPermission 1] ≠ ([] : List Permission)) ∧
      (findAuthorization allowsEq [authReadB1] [WriteBucketPermission 1] = none ↔
        ∀ a ∈ [authReadB1], satisfiesAll allowsEq a [WriteBucketPermission 1] = false) :=
  ⟨by decide,
    findAuthorization_none_iff allowsEq [authReadB1] [WriteBucketPermission 1]
      (by decide)⟩

/-- Unfolding of the satisfaction conjunction into a per-permission statement;
shared helper. -/
theorem satisfiesAll_eq_true (allows : Permission → Permission → Bool)
    (a : Authorization) (required : List Permission) :
    satisfiesAll allows a required = true ↔
      ∀ p ∈ required, a.Allowed allows p = true := by
  simp [satisfiesAll, List.all_eq_true]

/-- C3: Conjunctive satisfaction. An authorization satisfies the required set
exactly when the `allows`-based `Allowed` check holds for each required
permission individually — the `&&` chains of src/main.go lines 411 and
464-465 — not by structural equality of whole permission sets. -/
theorem satisfiesAll_iff_allows_each (allows : Permission → Permission → Bool)
    (a : Authorization) (required : List Permission) :
    satisfiesAll allows a required = true ↔
      ∀ p ∈ required, a.Allowed allows p = true :=
  satisfiesAll_eq_true allows a required

/-- C4: Empty-input behaviour. With no authorizations at all the matcher
reports not-found for any non-empty required set (the loop at src/main.go
lines 306-311 never runs, leaving the result variable nil). -/
theorem findAuthorization_nil (allows : Permission → Permission → Bool)
    (required : List Permission) (hne : required ≠ []) :
    findAuthorization allows [] required = none := rfl

/-- Witness for C4 at the spec scenario `required = [read(B1)]`. -/
theorem findAuthorization_nil_witness :
    ([ReadBucketPermission 1] ≠ ([] : List Permission)) ∧
      findAuthorization allowsEq [] [ReadBucketPermission 1] = none :=
  ⟨by decide, findAuthorization_nil allowsEq [ReadBucketPermission 1] (by decide)⟩

/-- C5: Purity and determinism. The imperative rendering of the loop returns
its input authorization slice unchanged alongside the result, and the result
component is exactly the value of the matcher function, so identical inputs
always yield identical results. -/
theorem findAuthorizationRun_pure (allows : Permission → Permission → Bool)
    (authorizations : List Authorization) (required : List Permission) :
    findAuthorizationRun allows authorizations required =
      (findAuthorization allows authorizations required, authorizations) := by
  induction authorizations with
  | nil => rfl
  | cons a rest ih =>
    by_cases ha : satisfiesAll allows a required = true
    · simp [findAuthorizationRun, findAuthorization, ha]
    · have ha' : satisfiesAll allows a required = false :=
        Bool.eq_false_iff.mpr ha
      simp [findAuthorizationRun, findAuthorization, ha', ih]

/-- C6: Scenario with a single requirement `write(B1)` against
[grant-read-only(B1), grant-write(B1)]: under any `allows` predicate in which
`read(B1)` does not subsume `write(B1)` and `write(B1)` allows itself, the
matcher returns the second authorization. -/
theorem findAuthorization_scenario_write (allows : Permission → Permission → Bool)
    (hr : allows (ReadBucketPermission 1) (WriteBucketPermission 1) = false)
    (hw : allows (WriteBucketPermission 1) (WriteBucketPermission 1) = true) :
    findAuthorization allows [authReadB1, authWriteB1] [WriteBucketPermission 1] =
      some authWriteB1 := by
  simp [findAuthorization, satisfiesAll, Authorization.Allowed, authReadB1,
    authWriteB1, hr, hw]

/-- Witness for C6 under the structural-equality `allows`. -/
theorem findAuthorization_scenario_write_witness :
    allowsEq (ReadBucketPermission 1) (WriteBucketPermission 1) = false ∧
      allowsEq (WriteBucketPermission 1) (WriteBucketPermission 1) = true ∧
      findAuthorization allowsEq [authReadB1, authWriteB1] [WriteBucketPermission 1] =
        some authWriteB1 :=
  ⟨by decide, by decide,
    findAuthorization_scenario_write allowsEq (by decide) (by decide)⟩

/-- C7: Scenario with two requirements `read(B1)` and `write(B2)` against
[grant-read(B1), grant-read(B1)-and-write(B2)]: under any `allows` predicate
in which each permission allows itself and `read(B1)` does not subsume
`write(B2)`, the matcher returns the second authorization. -/
theorem findAuthorization_scenario_downsample (allows : Permission → Permission → Bool)
    (hr : allows (ReadBucketPermission 1) (ReadBucketPermission 1) = true)
    (hw : allows (WriteBucketPermission 2) (WriteBucketPermission 2) = true)
    (hx : allows (ReadBucketPermission 1) (WriteBucketPermission 2) = false) :
    findAuthorization allows [authReadB1, authReadB1WriteB2]
        [ReadBucketPermission 1, WriteBucketPermission 2] =
      some authReadB1WriteB2 := by
  simp [findAuthorization, satisfiesAll, Authorization.Allowed, authReadB1,
    authReadB1WriteB2, hr, hw, hx]

/-- Witness for C7 under the structural-equality `allows`. -/
theorem findAuthorization_scenario_downsample_witness :
    allowsEq (ReadBucketPermission 1) (ReadBucketPermission 1) = true ∧
      allowsEq (WriteBucketPermission 2) (WriteBucketPermission 2) = true ∧
      allowsEq (ReadBucketPermission 1) (WriteBucketPermission 2) = false ∧
      findAuthorization allowsEq [authReadB1, authReadB1WriteB2]
          [ReadBucketPermission 1, WriteBucketPermission 2] =
        some authReadB1WriteB2 :=
  ⟨by decide, by decide, by decide,
    findAuthorization_scenario_downsample allowsEq (by decide) (by decide)
      (by decide)⟩

/-- C8: Result soundness. A returned authorization is an element of the input
and satisfies every required permission under `allows` — the loop at
src/main.go lines 306-311 only assigns the variable after the guard passes. -/
theorem findAuthorization_sound (allows : Permission → Permission → Bool)
    (authorizations : List Authorization) (required : List Permission)
    (a : Authorization)
    (h : findAuthorization allows authorizations required = some a) :
    a ∈ authorizations ∧ ∀ p ∈ required, a.Allowed allows p = true := by
  induction authorizations with
  | nil => exact absurd h (by simp [findAuthorization])
  | cons b rest ih =>
    by_cases hb : satisfiesAll allows b required = true
    · have hba : b = a := by
        simpa [findAuthorization, hb] using h
      subst hba
      refine ⟨List.mem_cons_self b rest, ?_⟩
      exact (satisfiesAll_eq_true allows b required).mp hb
    · have hb' : satisfiesAll allows b required = false :=
        Bool.eq_false_iff.mpr hb
      have h' : findAuthorization allows rest required = some a := by
        simpa [findAuthorization, hb'] using h
      obtain ⟨hmem, hall⟩ := ih h'
      exact ⟨List.mem_cons_of_mem b hmem, hall⟩

/-- Witness for C8 at the two-authorization write scenario. -/
theorem findAuthorization_sound_witness :
    findAuthorization allowsEq [authReadB1, authWriteB1] [WriteBucketPermission 1] =
        some authWriteB1 ∧
      (authWriteB1 ∈ [authReadB1, authWriteB1] ∧
        ∀ p ∈ [WriteBucketPermission 1], authWriteB1.Allowed allowsEq p = true) :=
  ⟨by decide,
    findAuthorization_sound allowsEq [authReadB1, authWriteB1]
      [WriteBucketPermission 1] authWriteB1 (by decide)⟩

/-- C9: Match stability under extension. Once the matcher has found an
authorization, appending further authorizations to the input cannot change the
result: the loop breaks at the first match (src/main.go line 309). -/
theorem findAuthorization_append_stable (allows : Permission → Permission → Bool)
    (l l2 : List Authorization) (required : List Permission) (a : Authorization)
    (h : findAuthorization allows l required = some a) :
    findAuthorization allows (l ++ l2) required = some a := by
  induction l with
  | nil => exact absurd h (by simp [findAuthorization])
  | cons b rest ih =>
    by_cases hb : satisfiesAll allows b required = true
    · have hba : b = a := by
        simpa [findAuthorization, hb] using h
      subst hba
      simp [findAuthorization, hb]
    · have hb' : satisfiesAll allows b required = false :=
        Bool.eq_false_iff.mpr hb
      have h' : findAuthorization allows rest required = some a := by
        simpa [findAuthorization, hb'] using h
      simpa [findAuthorization, hb'] using ih h'

/-- Witness for C9: extending a matched list with one more authorization. -/
theorem findAuthorization_append_stable_witness :
    findAuthorization allowsEq [authReadB1, authWriteB1] [WriteBucketPermission 1] =
        some authWriteB1 ∧
      findAuthorization allowsEq ([authReadB1, authWriteB1] ++ [authReadB1WriteB2])
          [WriteBucketPermission 1] =
        some authWriteB1 :=
  ⟨by decide,
    findAuthorization_append_stable allowsEq [authReadB1, authWriteB1]
      [authReadB1WriteB2] [WriteBucketPermission 1] authWriteB1 (by decide)⟩

/-- C10: Empty-required edge case. With an empty required set the guarding
conjunction is vacuously true, so the matcher returns the very first
authorization of a non-empty input regardless of its permissions. -/
theorem findAuthorization_empty_required (allows : Permission → Permission → Bool)
    (a : Authorization) (rest : List Authorization) :
    findAuthorization allows (a :: rest) [] = some a := by
  simp [findAuthorization, satisfiesAll]

end TaskDemo
